import Mathlib

/-!
Verification development for the Monkey interpreter (sinomoe/waiig).

The Go sources are shallowly embedded:
  * `src/token/token.go`            → `TokenType`, `Token`
  * ast package (src/unnamed/part_007) → `Expr`, `Stmt`, `Node`
  * object package (src/unnamed/part_000, second snapshot) → `Object`
  * environment (src/unnamed/part_001, second snapshot)    → `Frame`, `State`, `Environment.*`
  * evaluator (src/unnamed/part_003) → `run` with entry points `Eval`, `evalBlockStatement`, …
  * parser (src/unnamed/part_004)    → `parseExpression`, `parseAssignExpression`, …

Go interface values of type `object.Object` may be `nil`; they are embedded
as `Option Object` (`none` = Go `nil`).  A Go runtime panic (nil-pointer
dereference, integer division by zero) is the `.trap` outcome.  The
evaluator and parser recursions are indexed by a fuel parameter; running
out of fuel is the `.nofuel` outcome, an artifact of the embedding (every
theorem below supplies sufficient fuel explicitly).
-/

set_option linter.unusedVariables false

namespace Monkey

/-- Token kinds, from src/token/token.go. -/
inductive TokenType where
  | ILLEGAL | EOF | IDENT | INT | FLOAT | STRING
  | ASSIGN | PLUS | MINUS | BANG | ASTERISK | SLASH
  | LT | LTE | GT | GTE | EQ | NOT_EQ | DOT
  | COMMA | SEMICOLON | COLON
  | LPAREN | RPAREN | LBRACE | RBRACE | LBRACKET | RBRACKET
  | FUNCTION | LET | TRUE | FALSE | IF | ELSE | RETURN
deriving DecidableEq, Repr

/-- A token: kind plus the exact source lexeme (src/token/token.go). -/
structure Token where
  type : TokenType
  literal : String
deriving DecidableEq, Repr

mutual

/-- Expression nodes of the ast package (src/unnamed/part_007).  The
`Token` fields of the Go structs are used only for the printable form and
are dropped.  `*ast.Identifier` fields are embedded as the identifier's
`Value` string.  `nilExpression` stands for a Go `nil` `ast.Expression`
(the parser stores `nil` children when a sub-parse fails).
`floatLiteral` keeps the source lexeme: the evaluator in
src/unnamed/part_003 has no `FloatLiteral` case, so the `float64` payload
is never read. -/
inductive Expr where
  | identifier (value : String)
  | integerLiteral (value : Int)
  | floatLiteral (literal : String)
  | booleanLiteral (value : Bool)
  | stringLiteral (value : String)
  | prefixExpression (operator : String) (right : Expr)
  | infixExpression (left : Expr) (operator : String) (right : Expr)
  | ifExpression (condition : Expr) (consequence : List Stmt) (alternative : Option (List Stmt))
  | functionLiteral (parameters : List String) (body : List Stmt)
  | callExpression (function : Expr) (arguments : List Expr)
  | arrayLiteral (elements : List Expr)
  | indexExpression (left : Expr) (index : Expr)
  | hashLiteral (pairs : List (Expr × Expr))
  | assignExpression (left : Expr) (value : Expr)
  | nilExpression

/-- Statement nodes.  A `*ast.BlockStatement` is its statement list.
`assignStatement` is the `ast.AssignStatement` node consumed by the
evaluator (src/unnamed/part_003 line 54); its declaration file is not
under src/, and its fields (`Name *ast.Identifier`, `Value Expression`)
are taken from that use site and §4.3 of the spec.  `nilStatement` stands
for a Go `nil` `ast.Statement` (parseBlockStatement appends the result of
parseStatement even when it is nil). -/
inductive Stmt where
  | letStatement (name : String) (value : Expr)
  | returnStatement (returnValue : Expr)
  | expressionStatement (expression : Expr)
  | blockStatement (statements : List Stmt)
  | functionDeclarationStatement (name : String) (parameters : List String) (body : List Stmt)
  | assignStatement (name : String) (value : Expr)
  | nilStatement

end

/-- An `ast.Node` handed to `Eval` (the Go evaluator dispatches on the
dynamic type of its argument). -/
inductive Node where
  | expr (e : Expr)
  | stmt (s : Stmt)
  | program (statements : List Stmt)

/-- Runtime values, from the object package (src/unnamed/part_000, second
snapshot).  `returnValue` wraps a possibly-nil Go object.  A `Function`'s
captured environment is a frame index into the `State` heap below.
`float` carries the IEEE-754 bit pattern as a `Nat`; the evaluator never
constructs or inspects it. -/
inductive Object where
  | integer (value : Int)
  | float (bits : Nat)
  | boolean (value : Bool)
  | string (value : String)
  | null
  | returnValue (value : Option Object)
  | error (message : String)
  | function (parameters : List String) (body : List Stmt) (env : Nat)
  | builtin (name : String)
  | array (elements : List (Option Object))

def INTEGER_OBJ : String := "INTEGER"
def FLOAT_OBJ : String := "FLOAT"
def BOOLEAN_OBJ : String := "BOOLEAN"
def STRING_OBJ : String := "STRING"
def NULL_OBJ : String := "NULL"
def RETURN_VALUE_OBJ : String := "RETURN_VALUE"
def ERROR_OBJ : String := "ERROR"
def FUNCTION_OBJ : String := "FUNCTION"
def BULTIN_OBJ : String := "BUILTIN"
def ARRAY_OBJ : String := "ARRAY"

/-- The `Type()` method of the object package (`Type` is reserved in
Lean, hence `typeTag`). -/
def Object.typeTag : Object → String
  | .integer _ => INTEGER_OBJ
  | .float _ => FLOAT_OBJ
  | .boolean _ => BOOLEAN_OBJ
  | .string _ => STRING_OBJ
  | .null => NULL_OBJ
  | .returnValue _ => RETURN_VALUE_OBJ
  | .error _ => ERROR_OBJ
  | .function _ _ _ => FUNCTION_OBJ
  | .builtin _ => BULTIN_OBJ
  | .array _ => ARRAY_OBJ

/-- The canonical singletons of src/unnamed/part_003 lines 10-14.  The
evaluator allocates booleans only through `nativeBoolToBooleanObject` and
null only as `NULL`, so Go pointer identity with the singletons coincides
with structural equality here. -/
def NULL : Object := .null

def TRUE : Object := .boolean true

def FALSE : Object := .boolean false

def nativeBoolToBooleanObject (input : Bool) : Object :=
  if input then TRUE else FALSE

/-- Go `int64` values stay in `[-2^63, 2^63)`; arithmetic wraps. -/
def wrap64 (x : Int) : Int :=
  (x + 2 ^ 63) % 2 ^ 64 - 2 ^ 63

/-- A frame of the environment spine: the per-scope `store` map and the
pointer to the enclosing scope (src/unnamed/part_001, second snapshot).
Go's `map[string]Object` is an association list whose values may be Go
`nil`; `Set` overwrites in place, so keys stay unique. -/
structure Frame where
  store : List (String × Option Object)
  outer : Option Nat

/-- The heap of environment frames.  Go `*Environment` pointers are
indices into `frames`; `NewEnclosedEnviroment` appends a frame, and every
`outer` pointer refers to an earlier frame. -/
structure State where
  frames : List Frame

/-- Lookup in one frame's store (`e.store[name]`): distinguishes
found-with-nil-value from absent. -/
def storeGet : List (String × Option Object) → String → Option (Option Object)
  | [], _ => none
  | (k, v) :: rest, name => if k = name then some v else storeGet rest name

/-- Go map assignment `e.store[name] = val`: overwrite the existing entry
or add a new one. -/
def storeSet : List (String × Option Object) → String → Option Object → List (String × Option Object)
  | [], name, val => [(name, val)]
  | (k, v) :: rest, name, val =>
    if k = name then (name, val) :: rest else (k, v) :: storeSet rest name val

namespace Environment

/-- `GetLocal`: consult only the current frame. -/
def GetLocal (s : State) (env : Nat) (name : String) : Option (Option Object) :=
  match s.frames[env]? with
  | some fr => storeGet fr.store name
  | none => none

/-- The recursion of `getWithEnv`, walking `outer` pointers.  The fuel
bounds the walk; `s.frames.length` is always enough because every `outer`
pointer of a reachable state refers to a strictly earlier frame. -/
def getWithEnvAux (s : State) : Nat → Nat → String → Option (Option Object × Nat)
  | 0, _, _ => none
  | fuel + 1, env, name =>
    match s.frames[env]? with
    | none => none
    | some fr =>
      match storeGet fr.store name with
      | some obj => some (obj, env)
      | none =>
        match fr.outer with
        | some outer => getWithEnvAux s fuel outer name
        | none => none

/-- `getWithEnv`: find a binding along the spine together with the frame
that owns it. -/
def getWithEnv (s : State) (env : Nat) (name : String) : Option (Option Object × Nat) :=
  getWithEnvAux s s.frames.length env name

/-- `Get`: like `getWithEnv` but dropping the owning frame. -/
def Get (s : State) (env : Nat) (name : String) : Option (Option Object) :=
  (getWithEnv s env name).map Prod.fst

/-- `Set`: bind in the designated frame unconditionally.  (The index is
always valid in reachable states; an invalid index leaves the heap
unchanged.) -/
def Set (s : State) (env : Nat) (name : String) (val : Option Object) : State :=
  match s.frames[env]? with
  | some fr => ⟨s.frames.set env ⟨storeSet fr.store name val, fr.outer⟩⟩
  | none => s

/-- `Assign`: overwrite the binding in the frame that owns it, or return
an in-band error object.  The returned pair is (Go return value, heap
after the call). -/
def Assign (s : State) (env : Nat) (name : String) (val : Option Object) :
    Option Object × State :=
  match getWithEnv s env name with
  | none => (some (Object.error ("illegal assign, symbol not exist: " ++ name)), s)
  | some (_, owner) => (val, Set s owner name val)

/-- `NewEnclosedEnviroment` (source spelling): a fresh empty frame whose
`outer` is the given environment; returns its index and the new heap. -/
def NewEnclosedEnviroment (s : State) (outer : Nat) : Nat × State :=
  (s.frames.length, ⟨s.frames ++ [⟨[], some outer⟩]⟩)

/-- `NewEnvironment`: the root heap holding the single outermost frame
(referred to by index 0). -/
def NewEnvironment : State := ⟨[⟨[], none⟩]⟩

end Environment

/-- Outcome of a stateless evaluator helper: a possibly-nil Go object, or
a Go runtime panic. -/
inductive PRes where
  | ok (val : Option Object)
  | trap

/-- `isError` (src/unnamed/part_003 lines 290-295): nil is not an error. -/
def isError (obj : Option Object) : Bool :=
  match obj with
  | some o => o.typeTag == ERROR_OBJ
  | none => false

def newError (msg : String) : Object := .error msg

/-- `evalBangOperatorExpression` (src/unnamed/part_003 lines 158-170):
the singleton switch, then the integer case, then an unknown-operator
error.  With a nil operand the error path calls `right.Type()`, a nil
dereference. -/
def evalBangOperatorExpression (right : Option Object) : PRes :=
  match right with
  | some (.boolean true) => .ok (some FALSE)
  | some (.boolean false) => .ok (some TRUE)
  | some .null => .ok (some TRUE)
  | some (.integer v) => .ok (some (nativeBoolToBooleanObject (v == 0)))
  | some o => .ok (some (newError ("unknown operator: !" ++ o.typeTag)))
  | none => .trap

/-- `evalMinusPrefixOperatorExpression` (src/unnamed/part_003 lines
173-182). -/
def evalMinusPrefixOperatorExpression (right : Option Object) : PRes :=
  match right with
  | some (.integer v) => .ok (some (.integer (wrap64 (-v))))
  | some o => .ok (some (newError ("unknown operator: -" ++ o.typeTag)))
  | none => .trap

/-- `evalPrefixExpression` (src/unnamed/part_003 lines 147-155).  For any
other operator the source returns Go nil; the parser emits only `!` and
`-` prefix operators, and every consumer of such a nil eventually
dereferences it, so the branch is modelled as a trap. -/
def evalPrefixExpression (operator : String) (right : Option Object) : PRes :=
  match operator with
  | "!" => evalBangOperatorExpression right
  | "-" => evalMinusPrefixOperatorExpression right
  | _ => .trap

/-- `evalIntegerInfixExpression` (src/unnamed/part_003 lines 200-225).
`leftVal / rightVal` is Go `int64` division: truncation toward zero, and
a runtime panic — not an error value — when the divisor is zero.  The
type assertions panic on non-integers (unreachable: the caller dispatches
on the type tags). -/
def evalIntegerInfixExpression (operator : String) (left right : Object) : PRes :=
  match left, right with
  | .integer leftVal, .integer rightVal =>
    match operator with
    | "+" => .ok (some (.integer (wrap64 (leftVal + rightVal))))
    | "-" => .ok (some (.integer (wrap64 (leftVal - rightVal))))
    | "*" => .ok (some (.integer (wrap64 (leftVal * rightVal))))
    | "/" =>
      if rightVal = 0 then .trap
      else .ok (some (.integer (wrap64 (Int.tdiv leftVal rightVal))))
    | ">" => .ok (some (nativeBoolToBooleanObject (rightVal < leftVal)))
    | "<" => .ok (some (nativeBoolToBooleanObject (leftVal < rightVal)))
    | "==" => .ok (some (nativeBoolToBooleanObject (leftVal == rightVal)))
    | "!=" => .ok (some (nativeBoolToBooleanObject (leftVal != rightVal)))
    | _ => .ok (some (newError ("unknown operator: " ++ left.typeTag ++ " " ++ operator ++ " " ++ right.typeTag)))
  | _, _ => .trap

/-- `evalBooleanInfixExpression` (src/unnamed/part_003 lines 227-240). -/
def evalBooleanInfixExpression (operator : String) (left right : Object) : PRes :=
  match left, right with
  | .boolean leftVal, .boolean rightVal =>
    match operator with
    | "==" => .ok (some (nativeBoolToBooleanObject (leftVal == rightVal)))
    | "!=" => .ok (some (nativeBoolToBooleanObject (leftVal != rightVal)))
    | _ => .ok (some (newError ("unknown operator: " ++ left.typeTag ++ " " ++ operator ++ " " ++ right.typeTag)))
  | _, _ => .trap

/-- `evalStringInfixExpression` (src/unnamed/part_003 lines 242-257). -/
def evalStringInfixExpression (operator : String) (left right : Object) : PRes :=
  match left, right with
  | .string leftVal, .string rightVal =>
    match operator with
    | "+" => .ok (some (.string (leftVal ++ rightVal)))
    | "==" => .ok (some (nativeBoolToBooleanObject (leftVal == rightVal)))
    | "!=" => .ok (some (nativeBoolToBooleanObject (leftVal != rightVal)))
    | _ => .ok (some (newError ("unknown operator: " ++ left.typeTag ++ " " ++ operator ++ " " ++ right.typeTag)))
  | _, _ => .trap

/-- `evalInfixExpression` (src/unnamed/part_003 lines 185-198): dispatch
on the operands' type tags.  There is no case for FLOAT operands: two
floats reach the unknown-operator default, and a mixed pair the
type-mismatch case.  `left.Type()` on a nil operand is a nil
dereference. -/
def evalInfixExpression (operator : String) (left right : Option Object) : PRes :=
  match left, right with
  | some l, some r =>
    if l.typeTag == INTEGER_OBJ && r.typeTag == INTEGER_OBJ then
      evalIntegerInfixExpression operator l r
    else if l.typeTag == BOOLEAN_OBJ && r.typeTag == BOOLEAN_OBJ then
      evalBooleanInfixExpression operator l r
    else if l.typeTag == STRING_OBJ && r.typeTag == STRING_OBJ then
      evalStringInfixExpression operator l r
    else if l.typeTag != r.typeTag then
      .ok (some (newError ("type mismatch: " ++ l.typeTag ++ " " ++ operator ++ " " ++ r.typeTag)))
    else
      .ok (some (newError ("unknown operator: " ++ l.typeTag ++ " " ++ operator ++ " " ++ r.typeTag)))
  | _, _ => .trap

/-- `isTruthy` (src/unnamed/part_003 lines 269-282): the singleton
switch, then non-zero integers; every other value — strings, floats,
arrays, functions, builtins, and Go nil — falls through to `false`. -/
def isTruthy (obj : Option Object) : Bool :=
  match obj with
  | some .null => false
  | some (.boolean b) => b
  | some (.integer v) => v != 0
  | _ => false

/-- Modelled from the spec: the builtins registry (§4.5).  The evaluator
(src/unnamed/part_003 line 304) consults a `builtins` map whose defining
file is not under src/; per the spec it contains exactly `len`, `first`,
`last`, `rest`, `push`. -/
def builtins (name : String) : Option Object :=
  if name = "len" ∨ name = "first" ∨ name = "last" ∨ name = "rest" ∨ name = "push" then
    some (.builtin name)
  else none

/-- Modelled from the spec: the native behavior of the five builtins
(§4.5), with the arity and argument-type error messages the spec
gives.  No claim exercises this function. -/
def applyBuiltin (name : String) (args : List (Option Object)) : Object :=
  match name, args with
  | "len", [some (.string s)] => .integer s.length
  | "len", [some (.array a)] => .integer a.length
  | "len", [_] => .error ("argument to `len` must be ARRAY, got " ++
      (match args with | [some o] => o.typeTag | _ => NULL_OBJ))
  | "len", _ => .error ("wrong number of arguments. got=" ++ toString args.length ++ ", want=1")
  | "first", [some (.array a)] => (a.headD (some NULL)).getD NULL
  | "first", [some o] => .error ("argument to `first` must be ARRAY, got " ++ o.typeTag)
  | "first", _ => .error ("wrong number of arguments. got=" ++ toString args.length ++ ", want=1")
  | "last", [some (.array a)] => (a.getLastD (some NULL)).getD NULL
  | "last", [some o] => .error ("argument to `last` must be ARRAY, got " ++ o.typeTag)
  | "last", _ => .error ("wrong number of arguments. got=" ++ toString args.length ++ ", want=1")
  | "rest", [some (.array a)] => if a.isEmpty then NULL else .array a.tail
  | "rest", [some o] => .error ("argument to `rest` must be ARRAY, got " ++ o.typeTag)
  | "rest", _ => .error ("wrong number of arguments. got=" ++ toString args.length ++ ", want=1")
  | "push", [some (.array a), x] => .array (a ++ [x])
  | "push", [some o, _] => .error ("argument to `push` must be ARRAY, got " ++ o.typeTag)
  | "push", _ => .error ("wrong number of arguments. got=" ++ toString args.length ++ ", want=2")
  | _, _ => NULL

/-- Outcome of a run of the (stateful) evaluator: a possibly-nil object
with the heap after the run, a Go runtime panic, or fuel exhaustion.
`okList` is the result form of `evalExpressions` (a slice of evaluated
arguments); no other entry point produces it. -/
inductive Res where
  | ok (val : Option Object) (state : State)
  | okList (vals : List (Option Object)) (state : State)
  | trap
  | nofuel

/-- `evalIdentifier` (src/unnamed/part_003 lines 299-309): environment,
then builtins, then an identifier-not-found error. -/
def evalIdentifier (name : String) (env : Nat) (s : State) : Res :=
  match Environment.Get s env name with
  | some val => .ok val s
  | none =>
    match builtins name with
    | some b => .ok (some b) s
    | none => .ok (some (newError ("identifier not found: " ++ name))) s

/-- Binding loop of `applyFunction`: `env.Set(param.String(), args[i])`
for each parameter in order (arity already checked by the caller). -/
def bindParameters (s : State) (env : Nat) (params : List String)
    (args : List (Option Object)) : State :=
  (params.zip args).foldl (fun st pa => Environment.Set st env pa.1 pa.2) s

/-- The pending call of the evaluator's mutually recursive functions
(src/unnamed/part_003).  Lean's structural-recursion translation rejects
this SCC as six separate functions, so the six bodies live in the single
fuel-indexed function `run` below, one arm per source function, and the
source-named entry points are thin wrappers.  `blockStmts` and
`programStmts` carry Go's running `result` variable (nil before the first
iteration); `expressions` carries the accumulated `res` slice. -/
inductive Req where
  | node (n : Node)
  | blockStmts (result : Option Object) (stmts : List Stmt)
  | programStmts (result : Option Object) (stmts : List Stmt)
  | expressions (acc : List (Option Object)) (exprs : List Expr)
  | ifExpr (condition : Option Object) (consequence : List Stmt) (alternative : Option (List Stmt))
  | apply (fn : Option Object) (args : List (Option Object))

/-- The six evaluator functions of src/unnamed/part_003, fuel-indexed.
The fuel is decremented on entry to every arm; each recursive call is a
`run fuel …` on the request naming the Go callee.

* `.node` — `Eval` (lines 16-95).  Node kinds absent from the source's
  switch — `FloatLiteral`, `ArrayLiteral`, `IndexExpression`,
  `HashLiteral`, `AssignExpression`, `FunctionDeclarationStatement`, and
  nil nodes — fall through to `return NULL` without evaluating anything.
* `.blockStmts` — the loop of `evalBlockStatement` (lines 98-116):
  `result.Type()` on a nil result is a nil dereference; an `Error` or
  `ReturnValue` result is returned unchanged — `ReturnValue` is never
  unwrapped here.
* `.programStmts` — the loop of `evalProgram` (lines 119-137): a
  `ReturnValue` is unwrapped (the program is the outermost block); an
  `Error` stops evaluation; the type switch is nil-safe.
* `.expressions` — the loop of `evalExpressions` (lines 314-324):
  left-to-right, and on the first error the singleton list holding that
  error is the result.
* `.ifExpr` — `evalIfExpression` (lines 259-267).
* `.apply` — `applyFunction` (lines 331-365): builtins are invoked
  natively; a `Function` gets an arity check, a fresh enclosed frame with
  the parameters bound, its body evaluated there, and a resulting
  `ReturnValue` unwrapped — the one unwrap point below program top;
  `fn.Type()` in the default case dereferences a nil callee.

A `.ok`/`.okList` mismatch between a call and its consumer cannot occur
(`.okList` answers exactly the `.expressions` requests); such arms
propagate or trap and are unreachable. -/
def run : Nat → Req → Nat → State → Res
  | 0, _, _, _ => .nofuel
  | fuel + 1, req, env, s =>
    match req with
    | .node node =>
      match node with
      | .expr (.integerLiteral v) => .ok (some (.integer v)) s
      | .expr (.booleanLiteral b) => .ok (some (nativeBoolToBooleanObject b)) s
      | .expr (.stringLiteral str) => .ok (some (.string str)) s
      | .expr (.identifier name) => evalIdentifier name env s
      | .expr (.functionLiteral params body) => .ok (some (.function params body env)) s
      | .program stmts => run fuel (.programStmts none stmts) env s
      | .stmt (.expressionStatement e) => run fuel (.node (.expr e)) env s
      | .stmt (.blockStatement stmts) => run fuel (.blockStmts none stmts) env s
      | .stmt (.returnStatement rv) =>
        match run fuel (.node (.expr rv)) env s with
        | .ok val s1 => if isError val then .ok val s1 else .ok (some (.returnValue val)) s1
        | r => r
      | .stmt (.letStatement name value) =>
        match Environment.GetLocal s env name with
        | some _ => .ok (some (newError ("identifier exist: " ++ name))) s
        | none =>
          match run fuel (.node (.expr value)) env s with
          | .ok val s1 =>
            if isError val then .ok val s1
            else .ok (some NULL) (Environment.Set s1 env name val)
          | r => r
      | .stmt (.assignStatement name value) =>
        match run fuel (.node (.expr value)) env s with
        | .ok val s1 =>
          if isError val then .ok val s1
          else
            -- the Object returned by Assign (the error, if any) is discarded
            .ok val (Environment.Assign s1 env name val).2
        | r => r
      | .expr (.prefixExpression op right) =>
        match run fuel (.node (.expr right)) env s with
        | .ok val s1 =>
          if isError val then .ok val s1
          else
            match evalPrefixExpression op val with
            | .ok v => .ok v s1
            | .trap => .trap
        | r => r
      | .expr (.infixExpression left op right) =>
        match run fuel (.node (.expr left)) env s with
        | .ok lVal s1 =>
          if isError lVal then .ok lVal s1
          else
            match run fuel (.node (.expr right)) env s1 with
            | .ok rVal s2 =>
              if isError rVal then .ok rVal s2
              else
                match evalInfixExpression op lVal rVal with
                | .ok v => .ok v s2
                | .trap => .trap
            | r => r
        | r => r
      | .expr (.ifExpression cond cons alt) =>
        match run fuel (.node (.expr cond)) env s with
        | .ok val s1 => if isError val then .ok val s1 else run fuel (.ifExpr val cons alt) env s1
        | r => r
      | .expr (.callExpression f argExprs) =>
        match run fuel (.node (.expr f)) env s with
        | .ok val s1 =>
          if isError val then .ok val s1
          else
            match run fuel (.expressions [] argExprs) env s1 with
            | .okList args s2 =>
              if args.length != 0 && isError (args.headD none) then .ok (args.headD none) s2
              else run fuel (.apply val args) env s2
            | .ok _ _ => .trap
            | .trap => .trap
            | .nofuel => .nofuel
        | r => r
      | _ => .ok (some NULL) s
    | .blockStmts result stmts =>
      match stmts with
      | [] => .ok result s
      | stmt :: rest =>
        match run fuel (.node (.stmt stmt)) env s with
        | .ok result s1 =>
          match result with
          | none => .trap
          | some o =>
            if o.typeTag == ERROR_OBJ then .ok (some o) s1
            else if o.typeTag == RETURN_VALUE_OBJ then .ok (some o) s1
            else run fuel (.blockStmts (some o) rest) env s1
        | r => r
    | .programStmts result stmts =>
      match stmts with
      | [] => .ok result s
      | stmt :: rest =>
        match run fuel (.node (.stmt stmt)) env s with
        | .ok result s1 =>
          match result with
          | some (.returnValue v) => .ok v s1
          | some (.error m) => .ok (some (.error m)) s1
          | _ => run fuel (.programStmts result rest) env s1
        | r => r
    | .expressions acc exprs =>
      match exprs with
      | [] => .okList acc s
      | e :: rest =>
        match run fuel (.node (.expr e)) env s with
        | .ok val s1 =>
          if isError val then .okList [val] s1
          else run fuel (.expressions (acc ++ [val]) rest) env s1
        | r => r
    | .ifExpr condition consequence alternative =>
      if isTruthy condition then run fuel (.node (.stmt (.blockStatement consequence))) env s
      else
        match alternative with
        | none => .ok (some NULL) s
        | some alt => run fuel (.node (.stmt (.blockStatement alt))) env s
    | .apply fn args =>
      match fn with
      | some (.builtin name) => .ok (some (applyBuiltin name args)) s
      | some (.function params body fEnv) =>
        if args.length != params.length then
          .ok (some (newError ("args number mismatch, expect lenght: " ++
            toString params.length ++ ", but got: " ++ toString args.length))) s
        else
          let ns := Environment.NewEnclosedEnviroment s fEnv
          let s2 := bindParameters ns.2 ns.1 params args
          match run fuel (.node (.stmt (.blockStatement body))) ns.1 s2 with
          | .ok val s3 =>
            match val with
            | some (.returnValue v) => .ok v s3
            | _ => .ok val s3
          | r => r
      | some o => .ok (some (newError ("not a function: " ++ o.typeTag))) s
      | none => .trap

/-- `Eval` (src/unnamed/part_003 lines 16-95): the `.node` entry point of
`run`. -/
def Eval (fuel : Nat) (node : Node) (env : Nat) (s : State) : Res :=
  run fuel (.node node) env s

/-- `evalBlockStatement` (src/unnamed/part_003 lines 98-116). -/
def evalBlockStatement (fuel : Nat) (stmts : List Stmt) (env : Nat) (s : State) : Res :=
  run fuel (.blockStmts none stmts) env s

/-- `evalProgram` (src/unnamed/part_003 lines 119-137). -/
def evalProgram (fuel : Nat) (stmts : List Stmt) (env : Nat) (s : State) : Res :=
  run fuel (.programStmts none stmts) env s

/-- `evalExpressions` (src/unnamed/part_003 lines 314-324). -/
def evalExpressions (fuel : Nat) (exprs : List Expr) (env : Nat) (s : State) : Res :=
  run fuel (.expressions [] exprs) env s

/-- `evalIfExpression` (src/unnamed/part_003 lines 259-267). -/
def evalIfExpression (fuel : Nat) (condition : Option Object) (consequence : List Stmt)
    (alternative : Option (List Stmt)) (env : Nat) (s : State) : Res :=
  run fuel (.ifExpr condition consequence alternative) env s

/-- `applyFunction` (src/unnamed/part_003 lines 331-365); the
environment argument of `run` is irrelevant to `.apply` requests. -/
def applyFunction (fuel : Nat) (fn : Option Object) (args : List (Option Object))
    (s : State) : Res :=
  run fuel (.apply fn args) 0 s

/-- `TokenType.String()` via `tokenTypeStringMap` (src/token/token.go). -/
def TokenType.str : TokenType → String
  | .ILLEGAL => "ILLEGAL"
  | .EOF => "EOF"
  | .IDENT => "IDENT"
  | .INT => "INT"
  | .FLOAT => "FLOAT"
  | .STRING => "STRING"
  | .ASSIGN => "="
  | .PLUS => "+"
  | .MINUS => "-"
  | .BANG => "!"
  | .ASTERISK => "*"
  | .SLASH => "/"
  | .LT => "<"
  | .LTE => "<="
  | .GT => ">"
  | .GTE => ">="
  | .EQ => "=="
  | .NOT_EQ => "!="
  | .DOT => "."
  | .COMMA => ","
  | .SEMICOLON => ";"
  | .COLON => ":"
  | .LPAREN => "("
  | .RPAREN => ")"
  | .LBRACE => "\x7b"
  | .RBRACE => "\x7d"
  | .LBRACKET => "["
  | .RBRACKET => "]"
  | .FUNCTION => "FUNCTION"
  | .LET => "LET"
  | .TRUE => "TRUE"
  | .FALSE => "FALSE"
  | .IF => "IF"
  | .ELSE => "ELSE"
  | .RETURN => "RETURN"

/-- Parser state (src/unnamed/part_004): the token stream with the cursor
position (`curToken` is the token at `pos`, `peekToken` the next; the
lexer yields `EOF` tokens forever once exhausted) and the accumulated
error list. -/
structure PState where
  input : List Token
  pos : Nat
  errors : List String

def tokenAt (p : PState) (i : Nat) : Token := p.input.getD i ⟨.EOF, ""⟩

def curToken (p : PState) : Token := tokenAt p p.pos

def peekToken (p : PState) : Token := tokenAt p (p.pos + 1)

def nextToken (p : PState) : PState := { p with pos := p.pos + 1 }

def curTokenIs (p : PState) (t : TokenType) : Bool := (curToken p).type = t

def peekTokenIs (p : PState) (t : TokenType) : Bool := (peekToken p).type = t

/-- `peekError`: append "expected next token to be …" . -/
def peekError (p : PState) (t : TokenType) : PState :=
  { p with errors := p.errors ++
      ["expected next token to be " ++ t.str ++ ", got " ++ (peekToken p).type.str ++ " instead"] }

/-- `expectPeek`: advance past the expected token, or record the error. -/
def expectPeek (p : PState) (t : TokenType) : Bool × PState :=
  if peekTokenIs p t then (true, nextToken p) else (false, peekError p t)

def noPrefixParseFnError (p : PState) (t : TokenType) : PState :=
  { p with errors := p.errors ++ ["no prefix parse function for " ++ t.str ++ " found"] }

/-- The precedence levels of src/unnamed/part_004 lines 18-34.  The
`iota` block leaves a gap between `LOWEST` and `ASSIGN` so that the
assignment operator's lowered right binding power `ASSIGN - 1` still
exceeds `LOWEST`. -/
def LOWEST : Nat := 1

def ASSIGN : Nat := 3

def EQUALS : Nat := 4

def LESSGREATER : Nat := 5

def SUM : Nat := 6

def PRODUCT : Nat := 7

/-- Source name: PREFIX. -/
def PREFIXP : Nat := 8

def CALL : Nat := 9

def INDEX : Nat := 10

/-- The `precedences` table (src/unnamed/part_004 lines 37-51); absent
entries read as `LOWEST` via `peekPrecedence`/`curPrecedence`. -/
def precedences (t : TokenType) : Option Nat :=
  match t with
  | .ASSIGN => some ASSIGN
  | .EQ => some EQUALS
  | .NOT_EQ => some EQUALS
  | .LT => some LESSGREATER
  | .GT => some LESSGREATER
  | .LTE => some LESSGREATER
  | .GTE => some LESSGREATER
  | .PLUS => some SUM
  | .MINUS => some SUM
  | .SLASH => some PRODUCT
  | .ASTERISK => some PRODUCT
  | .LPAREN => some CALL
  | .LBRACKET => some INDEX
  | _ => none

def peekPrecedence (p : PState) : Nat := (precedences (peekToken p).type).getD LOWEST

def curPrecedence (p : PState) : Nat := (precedences (curToken p).type).getD LOWEST

/-- A Go `nil` `ast.Expression` child stored into a node. -/
def orNil (e : Option Expr) : Expr := e.getD .nilExpression

/-- A Go `nil` `ast.Statement` appended to a block's statement list. -/
def orNilStmt (s : Option Stmt) : Stmt := s.getD .nilStatement

/-- `strconv.ParseInt(lit, 0, 64)` restricted to the literals the lexer
can produce (strings of decimal digits): a leading `0` on a longer
literal selects base 8 (digits 8 and 9 then fail), otherwise base 10,
with the int64 range check.  Base prefixes `0x`/`0b`/`0o`, signs and
underscores never occur in a lexed INT literal. -/
def goParseInt (lit : String) : Option Int :=
  let cs := lit.toList
  if cs.isEmpty ∨ cs.any (fun c => ¬ c.isDigit) then none
  else
    let base : Nat := if 1 < cs.length ∧ cs.headD '0' = '0' then 8 else 10
    let val := cs.foldl (fun acc c =>
      acc.bind fun n => if c.toNat - 48 < base then some (n * base + (c.toNat - 48)) else none)
      (some 0)
    match val with
    | some n => if n < 2 ^ 63 then some (n : Int) else none
    | none => none

/-- Success predicate of `strconv.ParseFloat(lit, 64)` on the shapes the
lexer can produce (`[0-9]+(\.[0-9]+)?`): digits with at most one dot and
at least one digit.  (Exponent and sign forms never occur in a lexed
FLOAT literal; the parsed value itself is never read, see
`Expr.floatLiteral`.) -/
def goParseFloatOk (lit : String) : Bool :=
  let cs := lit.toList
  ¬ cs.isEmpty ∧ cs.all (fun c => c.isDigit ∨ c = '.') ∧
    (cs.filter (fun c => c = '.')).length ≤ 1 ∧ cs.any Char.isDigit

/-- `parseIdentifier` (src/unnamed/part_004 lines 301-303). -/
def parseIdentifier (p : PState) : Option Expr × PState :=
  (some (.identifier (curToken p).literal), p)

/-- `parseIntegerLiteral` (src/unnamed/part_004 lines 306-316). -/
def parseIntegerLiteral (p : PState) : Option Expr × PState :=
  match goParseInt (curToken p).literal with
  | some v => (some (.integerLiteral v), p)
  | none =>
    (none, { p with errors := p.errors ++
      ["could not parse \"" ++ (curToken p).literal ++ "\" as integer"] })

/-- `parseFloatLiteral` (src/unnamed/part_004 lines 319-329; its error
message says "integer", copied from the integer case). -/
def parseFloatLiteral (p : PState) : Option Expr × PState :=
  if goParseFloatOk (curToken p).literal then (some (.floatLiteral (curToken p).literal), p)
  else
    (none, { p with errors := p.errors ++
      ["could not parse \"" ++ (curToken p).literal ++ "\" as integer"] })

/-- `parseBooleanLiteral` (src/unnamed/part_004 lines 332-337). -/
def parseBooleanLiteral (p : PState) : Option Expr × PState :=
  (some (.booleanLiteral (curTokenIs p .TRUE)), p)

/-- `parseStringLiteral` (src/unnamed/part_004 lines 340-345). -/
def parseStringLiteral (p : PState) : Option Expr × PState :=
  (some (.stringLiteral (curToken p).literal), p)

/-- The token kinds with a registered prefix parse function
(src/unnamed/part_004 lines 79-92). -/
def hasPrefixFn : TokenType → Bool
  | .IDENT | .INT | .FLOAT | .STRING | .FALSE | .TRUE
  | .BANG | .MINUS | .LPAREN | .IF | .FUNCTION | .LBRACKET | .LBRACE => true
  | _ => false

/-- The token kinds with a registered infix parse function
(src/unnamed/part_004 lines 95-109). -/
def hasInfixFn : TokenType → Bool
  | .ASSIGN | .PLUS | .MINUS | .SLASH | .ASTERISK
  | .EQ | .NOT_EQ | .LT | .GT | .LTE | .GTE | .LPAREN | .LBRACKET => true
  | _ => false

mutual

/-- `parseExpression` (src/unnamed/part_004 lines 276-298): the Pratt
core.  Dispatch to the prefix handler registered for the current token
(recording "no prefix parse function …" when none is), then run the
binding-power loop.  All functions of this block take a fuel parameter,
decremented on entry; exhaustion returns the nil/empty result. -/
def parseExpression : Nat → Nat → PState → Option Expr × PState
  | 0, _, p => (none, p)
  | fuel + 1, precedence, p =>
    if hasPrefixFn (curToken p).type then
      let lp :=
        match (curToken p).type with
        | .IDENT => parseIdentifier p
        | .INT => parseIntegerLiteral p
        | .FLOAT => parseFloatLiteral p
        | .STRING => parseStringLiteral p
        | .TRUE => parseBooleanLiteral p
        | .FALSE => parseBooleanLiteral p
        | .BANG => parsePrefixExpression fuel p
        | .MINUS => parsePrefixExpression fuel p
        | .LPAREN => parseGroupedExpression fuel p
        | .IF => parseIfExpression fuel p
        | .FUNCTION => parseFunctionLiteral fuel p
        | .LBRACKET => parseArrayLiteral fuel p
        | _ => parseHashLiteral fuel p
      parseExpressionLoop fuel precedence lp.1 lp.2
    else (none, noPrefixParseFnError p (curToken p).type)

/-- The `for` loop of `parseExpression`: while the next token is not `;`
and binds tighter than `precedence`, advance onto it and run its infix
handler (returning `left` unchanged when none is registered). -/
def parseExpressionLoop : Nat → Nat → Option Expr → PState → Option Expr × PState
  | 0, _, leftExp, p => (leftExp, p)
  | fuel + 1, precedence, leftExp, p =>
    if ¬ peekTokenIs p .SEMICOLON ∧ precedence < peekPrecedence p then
      if hasInfixFn (peekToken p).type then
        let p1 := nextToken p
        let lp :=
          match (curToken p1).type with
          | .ASSIGN => parseAssignExpression fuel leftExp p1
          | .LPAREN => parseCallExpression fuel leftExp p1
          | .LBRACKET => parseIndexExpression fuel leftExp p1
          | _ => parseInfixExpression fuel leftExp p1
        parseExpressionLoop fuel precedence lp.1 lp.2
      else (leftExp, p)
    else (leftExp, p)

/-- `parsePrefixExpression` (src/unnamed/part_004 lines 350-358). -/
def parsePrefixExpression : Nat → PState → Option Expr × PState
  | 0, p => (none, p)
  | fuel + 1, p =>
    let op := (curToken p).literal
    let lp := parseExpression fuel PREFIXP (nextToken p)
    (some (.prefixExpression op (orNil lp.1)), lp.2)

/-- `parseInfixExpression` (src/unnamed/part_004 lines 370-381): the
standard left-associative scheme — right operand parsed at the
operator's own precedence. -/
def parseInfixExpression : Nat → Option Expr → PState → Option Expr × PState
  | 0, _, p => (none, p)
  | fuel + 1, left, p =>
    let op := (curToken p).literal
    let precedence := curPrecedence p
    let lp := parseExpression fuel precedence (nextToken p)
    (some (.infixExpression (orNil left) op (orNil lp.1)), lp.2)

/-- `parseAssignExpression` (src/unnamed/part_004 lines 593-602): the
right operand is parsed with the lowered binding power `ASSIGN - 1`, so a
following `=` still binds and chained assignment nests to the right. -/
def parseAssignExpression : Nat → Option Expr → PState → Option Expr × PState
  | 0, _, p => (none, p)
  | fuel + 1, left, p =>
    let lp := parseExpression fuel (ASSIGN - 1) (nextToken p)
    (some (.assignExpression (orNil left) (orNil lp.1)), lp.2)

/-- `parseGroupedExpression` (src/unnamed/part_004 lines 385-392). -/
def parseGroupedExpression : Nat → PState → Option Expr × PState
  | 0, p => (none, p)
  | fuel + 1, p =>
    let lp := parseExpression fuel LOWEST (nextToken p)
    match expectPeek lp.2 .RPAREN with
    | (true, p3) => (lp.1, p3)
    | (false, p3) => (none, p3)

/-- `parseIfExpression` (src/unnamed/part_004 lines 396-421). -/
def parseIfExpression : Nat → PState → Option Expr × PState
  | 0, p => (none, p)
  | fuel + 1, p =>
    match expectPeek p .LPAREN with
    | (false, p1) => (none, p1)
    | (true, p1) =>
      let cp := parseExpression fuel LOWEST (nextToken p1)
      match expectPeek cp.2 .RPAREN with
      | (false, p3) => (none, p3)
      | (true, p3) =>
        match expectPeek p3 .LBRACE with
        | (false, p4) => (none, p4)
        | (true, p4) =>
          let bp := parseBlockStatement fuel p4
          if ¬ peekTokenIs bp.2 .ELSE then
            (some (.ifExpression (orNil cp.1) bp.1 none), bp.2)
          else
            let p6 := nextToken bp.2
            match expectPeek p6 .LBRACE with
            | (false, p7) => (none, p7)
            | (true, p7) =>
              let ap := parseBlockStatement fuel p7
              (some (.ifExpression (orNil cp.1) bp.1 (some ap.1)), ap.2)

/-- `parseBlockStatement` (src/unnamed/part_004 lines 425-436): step past
`\x7b`, then collect statements until `\x7d` or `EOF`. -/
def parseBlockStatement : Nat → PState → List Stmt × PState
  | 0, p => ([], p)
  | fuel + 1, p => parseBlockLoop fuel [] (nextToken p)

/-- The collection loop of `parseBlockStatement`; the parsed statement is
appended even when it is Go `nil`. -/
def parseBlockLoop : Nat → List Stmt → PState → List Stmt × PState
  | 0, acc, p => (acc, p)
  | fuel + 1, acc, p =>
    if ¬ curTokenIs p .RBRACE ∧ ¬ curTokenIs p .EOF then
      let sp := parseStatement fuel p
      parseBlockLoop fuel (acc ++ [orNilStmt sp.1]) (nextToken sp.2)
    else (acc, p)

/-- `parseFunctionLiteral` (src/unnamed/part_004 lines 441-455). -/
def parseFunctionLiteral : Nat → PState → Option Expr × PState
  | 0, p => (none, p)
  | fuel + 1, p =>
    match expectPeek p .LPAREN with
    | (false, p1) => (none, p1)
    | (true, p1) =>
      let pp := parseFunctionParameters fuel p1
      match expectPeek pp.2 .LBRACE with
      | (false, p3) => (none, p3)
      | (true, p3) =>
        let bp := parseBlockStatement fuel p3
        (some (.functionLiteral pp.1 bp.1), bp.2)

/-- `parseFunctionParameters` (src/unnamed/part_004 lines 458-479).  A
failing `expectPeek` makes the source return a nil slice, embedded as the
empty list (nil and empty slices are indistinguishable to the
consumers). -/
def parseFunctionParameters : Nat → PState → List String × PState
  | 0, p => ([], p)
  | fuel + 1, p =>
    if peekTokenIs p .RPAREN then ([], nextToken p)
    else
      match expectPeek p .IDENT with
      | (false, p1) => ([], p1)
      | (true, p1) => parseFunctionParametersLoop fuel [(curToken p1).literal] p1

/-- The comma loop of `parseFunctionParameters`. -/
def parseFunctionParametersLoop : Nat → List String → PState → List String × PState
  | 0, acc, p => (acc, p)
  | fuel + 1, acc, p =>
    if peekTokenIs p .COMMA then
      let p1 := nextToken p
      match expectPeek p1 .IDENT with
      | (false, p2) => ([], p2)
      | (true, p2) => parseFunctionParametersLoop fuel (acc ++ [(curToken p2).literal]) p2
    else
      match expectPeek p .RPAREN with
      | (false, p1) => ([], p1)
      | (true, p1) => (acc, p1)

/-- `parseCallExpression` (src/unnamed/part_004 lines 484-490). -/
def parseCallExpression : Nat → Option Expr → PState → Option Expr × PState
  | 0, _, p => (none, p)
  | fuel + 1, left, p =>
    let ap := parseCallExpressionArguments fuel p
    (some (.callExpression (orNil left) ap.1), ap.2)

/-- `parseCallExpressionArguments` (src/unnamed/part_004 lines
493-509). -/
def parseCallExpressionArguments : Nat → PState → List Expr × PState
  | 0, p => ([], p)
  | fuel + 1, p =>
    let p1 := nextToken p
    if curTokenIs p1 .RPAREN then ([], p1)
    else
      let ep := parseExpression fuel LOWEST p1
      parseCallArgsLoop fuel [orNil ep.1] ep.2

/-- The comma loop of `parseCallExpressionArguments`. -/
def parseCallArgsLoop : Nat → List Expr → PState → List Expr × PState
  | 0, acc, p => (acc, p)
  | fuel + 1, acc, p =>
    if peekTokenIs p .COMMA then
      let p1 := nextToken (nextToken p)
      let ep := parseExpression fuel LOWEST p1
      parseCallArgsLoop fuel (acc ++ [orNil ep.1]) ep.2
    else
      match expectPeek p .RPAREN with
      | (false, p1) => ([], p1)
      | (true, p1) => (acc, p1)

/-- `parseArrayLiteral` (src/unnamed/part_004 lines 512-532). -/
def parseArrayLiteral : Nat → PState → Option Expr × PState
  | 0, p => (none, p)
  | fuel + 1, p =>
    let p1 := nextToken p
    if curTokenIs p1 .RBRACKET then (some (.arrayLiteral []), p1)
    else
      let ep := parseExpression fuel LOWEST p1
      parseArrayElemsLoop fuel [orNil ep.1] ep.2

/-- The comma loop of `parseArrayLiteral`. -/
def parseArrayElemsLoop : Nat → List Expr → PState → Option Expr × PState
  | 0, _, p => (none, p)
  | fuel + 1, acc, p =>
    if peekTokenIs p .COMMA then
      let p1 := nextToken (nextToken p)
      let ep := parseExpression fuel LOWEST p1
      parseArrayElemsLoop fuel (acc ++ [orNil ep.1]) ep.2
    else
      match expectPeek p .RBRACKET with
      | (false, p1) => (none, p1)
      | (true, p1) => (some (.arrayLiteral acc), p1)

/-- `parseIndexExpression` (src/unnamed/part_004 lines 534-545). -/
def parseIndexExpression : Nat → Option Expr → PState → Option Expr × PState
  | 0, _, p => (none, p)
  | fuel + 1, left, p =>
    let ip := parseExpression fuel LOWEST (nextToken p)
    match expectPeek ip.2 .RBRACKET with
    | (false, p1) => (none, p1)
    | (true, p1) => (some (.indexExpression (orNil left) (orNil ip.1)), p1)

/-- `parseHashLiteral` (src/unnamed/part_004 lines 547-577).  The Go
`map[Expression]Expression` keyed by freshly-allocated nodes is an
insertion sequence of pairs. -/
def parseHashLiteral : Nat → PState → Option Expr × PState
  | 0, p => (none, p)
  | fuel + 1, p =>
    let p1 := nextToken p
    if curTokenIs p1 .RBRACE then (some (.hashLiteral []), p1)
    else
      match parseKeyValPair fuel p1 with
      | (none, p2) => (none, p2)
      | (some kv, p2) => parseHashPairsLoop fuel [kv] p2

/-- The comma loop of `parseHashLiteral`. -/
def parseHashPairsLoop : Nat → List (Expr × Expr) → PState → Option Expr × PState
  | 0, _, p => (none, p)
  | fuel + 1, acc, p =>
    if peekTokenIs p .COMMA then
      let p1 := nextToken (nextToken p)
      match parseKeyValPair fuel p1 with
      | (none, p2) => (none, p2)
      | (some kv, p2) => parseHashPairsLoop fuel (acc ++ [kv]) p2
    else
      match expectPeek p .RBRACE with
      | (false, p1) => (none, p1)
      | (true, p1) => (some (.hashLiteral acc), p1)

/-- `parseKeyValPair` (src/unnamed/part_004 lines 579-588); `none` is the
`ok = false` outcome. -/
def parseKeyValPair : Nat → PState → Option (Expr × Expr) × PState
  | 0, p => (none, p)
  | fuel + 1, p =>
    let kp := parseExpression fuel LOWEST p
    match expectPeek kp.2 .COLON with
    | (false, p1) => (none, p1)
    | (true, p1) =>
      let vp := parseExpression fuel LOWEST (nextToken p1)
      (some (orNil kp.1, orNil vp.1), vp.2)

/-- `parseStatement` (src/unnamed/part_004 lines 188-205): `let`,
`return`, `fn IDENT` (declaration), everything else — including `fn (`
and a bare `fn` — an expression statement. -/
def parseStatement : Nat → PState → Option Stmt × PState
  | 0, p => (none, p)
  | fuel + 1, p =>
    match (curToken p).type with
    | .LET => parseLetStatement fuel p
    | .RETURN => parseReturnStatement fuel p
    | .FUNCTION =>
      if peekTokenIs p .IDENT then parseFunctionDeclarationStatement fuel p
      else parseExpressionStatement fuel p
    | _ => parseExpressionStatement fuel p

/-- `parseLetStatement` (src/unnamed/part_004 lines 209-225). -/
def parseLetStatement : Nat → PState → Option Stmt × PState
  | 0, p => (none, p)
  | fuel + 1, p =>
    match expectPeek p .IDENT with
    | (false, p1) => (none, p1)
    | (true, p1) =>
      let name := (curToken p1).literal
      match expectPeek p1 .ASSIGN with
      | (false, p2) => (none, p2)
      | (true, p2) =>
        let vp := parseExpression fuel LOWEST (nextToken p2)
        let p4 := if peekTokenIs vp.2 .SEMICOLON then nextToken vp.2 else vp.2
        (some (.letStatement name (orNil vp.1)), p4)

/-- `parseReturnStatement` (src/unnamed/part_004 lines 229-238). -/
def parseReturnStatement : Nat → PState → Option Stmt × PState
  | 0, p => (none, p)
  | fuel + 1, p =>
    let vp := parseExpression fuel LOWEST (nextToken p)
    let p2 := if peekTokenIs vp.2 .SEMICOLON then nextToken vp.2 else vp.2
    (some (.returnStatement (orNil vp.1)), p2)

/-- `parseFunctionDeclarationStatement` (src/unnamed/part_004 lines
242-261). -/
def parseFunctionDeclarationStatement : Nat → PState → Option Stmt × PState
  | 0, p => (none, p)
  | fuel + 1, p =>
    match expectPeek p .IDENT with
    | (false, p1) => (none, p1)
    | (true, p1) =>
      let name := (curToken p1).literal
      match expectPeek p1 .LPAREN with
      | (false, p2) => (none, p2)
      | (true, p2) =>
        let pp := parseFunctionParameters fuel p2
        match expectPeek pp.2 .LBRACE with
        | (false, p3) => (none, p3)
        | (true, p3) =>
          let bp := parseBlockStatement fuel p3
          (some (.functionDeclarationStatement name pp.1 bp.1), bp.2)

/-- `parseExpressionStatement` (src/unnamed/part_004 lines 264-271). -/
def parseExpressionStatement : Nat → PState → Option Stmt × PState
  | 0, p => (none, p)
  | fuel + 1, p =>
    let ep := parseExpression fuel LOWEST p
    let p2 := if peekTokenIs ep.2 .SEMICOLON then nextToken ep.2 else ep.2
    (some (.expressionStatement (orNil ep.1)), p2)

/-- The loop of `ParseProgram` (src/unnamed/part_004 lines 171-184):
parse statements until `EOF`, skipping Go-nil results, advancing one
token after each statement. -/
def parseProgramLoop : Nat → List Stmt → PState → List Stmt × PState
  | 0, acc, p => (acc, p)
  | fuel + 1, acc, p =>
    if curTokenIs p .EOF then (acc, p)
    else
      let sp := parseStatement fuel p
      let acc1 := match sp.1 with
        | some stmt => acc ++ [stmt]
        | none => acc
      parseProgramLoop fuel acc1 (nextToken sp.2)

end

/-- `ParseProgram` on a token stream, from the initial parser state
(`New` primes `curToken`/`peekToken` with the first two tokens, which the
position-based state reproduces at `pos = 0`).  Returns the program's
statements and the final state carrying the error list. -/
def ParseProgram (fuel : Nat) (input : List Token) : List Stmt × PState :=
  parseProgramLoop fuel [] ⟨input, 0, []⟩

/-- `n` block statements nested around a statement (for the
return-isolation property: `return` inside arbitrarily nested blocks). -/
def nestBlocks : Nat → Stmt → Stmt
  | 0, st => st
  | n + 1, st => .blockStatement [nestBlocks n st]

/-- The `outer` pointer of a frame refers to a strictly earlier frame (or
is absent). -/
def frameOuterLT (fr : Frame) (i : Nat) : Prop :=
  match fr.outer with
  | some o => o < i
  | none => True

instance (fr : Frame) (i : Nat) : Decidable (frameOuterLT fr i) :=
  match h : fr.outer with
  | some o =>
    if ho : o < i then .isTrue (by simp [frameOuterLT, h, ho])
    else .isFalse (by simp [frameOuterLT, h, ho])
  | none => .isTrue (by simp [frameOuterLT, h])

/-- Well-formedness of a heap of frames: every `outer` pointer goes to a
strictly earlier frame.  `Environment.NewEnvironment` satisfies it and
`Environment.NewEnclosedEnviroment`, `Set` and `Assign` preserve it, so
every heap the evaluator builds is well formed. -/
def WFState (s : State) : Prop :=
  ∀ i, (h : i < s.frames.length) → frameOuterLT s.frames[i] i

instance (s : State) : Decidable (WFState s) :=
  inferInstanceAs (Decidable (∀ i, (h : i < s.frames.length) → frameOuterLT s.frames[i] i))

/-- The environment spine visited from frame `env` outward, with the same
fuel-bounded traversal as `Environment.getWithEnvAux`. -/
def spineAux (s : State) : Nat → Nat → List Nat
  | 0, _ => []
  | fuel + 1, env =>
    match s.frames[env]? with
    | none => []
    | some fr =>
      env ::
        (match fr.outer with
         | some outer => spineAux s fuel outer
         | none => [])

/-- The environment spine from frame `env` to the root (complete on
well-formed heaps, where `s.frames.length` bounds the walk). -/
def spine (s : State) (env : Nat) : List Nat :=
  spineAux s s.frames.length env

/-- An if expression selecting `1` against `2`, used to probe the
truthiness of its condition end to end. -/
def ifOneTwo (cond : Expr) : Node :=
  .expr (.ifExpression cond
    [.expressionStatement (.integerLiteral 1)]
    (some [.expressionStatement (.integerLiteral 2)]))

/-- A two-frame heap: a root frame binding `x` and `y`, and an enclosed
frame shadowing `x`, as produced by one `NewEnclosedEnviroment` plus
`Set` calls. -/
def twoFrameHeap : State :=
  ⟨[⟨[("x", some (.integer 1)), ("y", some (.integer 2))], none⟩,
    ⟨[("x", some (.integer 3))], some 0⟩]⟩

/-! ## Theorems -/

/-- C1: the claim says an integer division whose right operand is 0
evaluates to an in-band Error value and never raises a host-level trap.
The code (`evalIntegerInfixExpression`, src/unnamed/part_003 line 213)
computes `leftVal / rightVal` with Go's `/`, which panics at runtime on a
zero divisor: evaluating `1 / 0` is a host trap, not an Error value.
(The second conjunct shows the panic surfacing through a whole program
run; the last two show ordinary division truncating toward zero, so the
trap is not an artifact of the embedding of `/`.) -/
theorem C1_division_by_zero_is_host_trap :
    evalIntegerInfixExpression "/" (.integer 1) (.integer 0) = .trap
    ∧ Eval 9 (.program [.expressionStatement
        (.infixExpression (.integerLiteral 1) "/" (.integerLiteral 0))]) 0
        Environment.NewEnvironment = .trap
    ∧ evalIntegerInfixExpression "/" (.integer 7) (.integer 2) = .ok (some (.integer 3))
    ∧ evalIntegerInfixExpression "/" (.integer (-7)) (.integer 2) = .ok (some (.integer (-3))) := by
  refine ⟨rfl, rfl, ?_, ?_⟩ <;> rfl

/-- C3: the claim says assigning to an identifier that is unbound in
every frame yields the Error value "illegal assign, symbol not exist: X"
as the result of the assignment.  `Environment.Assign` does construct
that error (src/unnamed/part_001 line 84), but the evaluator's
`AssignStatement` case (src/unnamed/part_003 lines 54-60) discards
`env.Assign`'s return value and returns the RHS value instead: `x = 5` in
an empty environment evaluates to `5` with the heap untouched, and the
error object can never surface. -/
theorem C3_assign_unbound_error_is_discarded :
    Eval 9 (.program [.assignStatement "x" (.integerLiteral 5)]) 0 Environment.NewEnvironment
      = .ok (some (.integer 5)) Environment.NewEnvironment
    ∧ (Environment.Assign Environment.NewEnvironment 0 "x" (some (.integer 5))).1
      = some (.error "illegal assign, symbol not exist: x")
    ∧ ¬ Eval 9 (.program [.assignStatement "x" (.integerLiteral 5)]) 0 Environment.NewEnvironment
        = .ok (some (.error "illegal assign, symbol not exist: x")) Environment.NewEnvironment := by
  refine ⟨rfl, rfl, fun h => ?_⟩
  have h2 : Res.ok (some (Object.integer 5)) Environment.NewEnvironment
      = .ok (some (.error "illegal assign, symbol not exist: x")) Environment.NewEnvironment :=
    Eq.trans (Eq.symm rfl) h
  simp at h2

/-- C5 counterexample: the claim says an index expression on an Array
with an in-range Integer index evaluates to the selected element.  The
evaluator's switch (src/unnamed/part_003 lines 16-95) has no
`IndexExpression` case, so `[7][0]` falls through to `return NULL` and
evaluates to Null, not to `7`. -/
theorem C5_counterexample_inrange_index_is_null :
    Eval 9 (.program [.expressionStatement
        (.indexExpression (.arrayLiteral [.integerLiteral 7]) (.integerLiteral 0))]) 0
        Environment.NewEnvironment
      = .ok (some .null) Environment.NewEnvironment
    ∧ ¬ Eval 9 (.program [.expressionStatement
        (.indexExpression (.arrayLiteral [.integerLiteral 7]) (.integerLiteral 0))]) 0
        Environment.NewEnvironment
      = .ok (some (.integer 7)) Environment.NewEnvironment := by
  refine ⟨rfl, fun h => ?_⟩
  have h2 : Res.ok (some Object.null) Environment.NewEnvironment
      = .ok (some (.integer 7)) Environment.NewEnvironment := Eq.trans (Eq.symm rfl) h
  simp at h2

/-- C5 amended: every index expression evaluates to Null — the evaluator
has no `IndexExpression` case, its operands are not evaluated (the heap
is returned unchanged), and in particular both in-range and out-of-range
array indexing yield Null. -/
theorem C5_every_index_expression_is_null (left index : Expr) (f env : Nat) (s : State) :
    Eval (f + 1) (.expr (.indexExpression left index)) env s = .ok (some NULL) s := rfl

/-- C6 counterexample: the claim says Float/Float and mixed
Integer/Float infix operands are promoted to float arithmetic rather
than producing a type-mismatch or unknown-operator error.
`evalInfixExpression` (src/unnamed/part_003 lines 185-198) has no FLOAT
dispatch case: two Floats fall to the unknown-operator default and a
mixed pair to the type-mismatch case. -/
theorem C6_counterexample_no_float_promotion :
    evalInfixExpression "+" (some (.float 0)) (some (.float 0))
      = .ok (some (.error "unknown operator: FLOAT + FLOAT"))
    ∧ evalInfixExpression "+" (some (.integer 1)) (some (.float 0))
      = .ok (some (.error "type mismatch: INTEGER + FLOAT"))
    ∧ evalInfixExpression "+" (some (.float 0)) (some (.integer 1))
      = .ok (some (.error "type mismatch: FLOAT + INTEGER")) := by
  exact ⟨rfl, rfl, rfl⟩

/-- C6 amended: for every operator, an infix expression on two Float
operands yields the unknown-operator error and a mixed Integer/Float
pair (either order) the type-mismatch error; no float arithmetic exists.
Moreover the evaluator never constructs Float values in the first place:
a float literal has no `Eval` case and evaluates to Null. -/
theorem C6_float_infix_is_error (op : String) (b1 b2 : Nat) (v : Int)
    (lit : String) (f env : Nat) (s : State) :
    evalInfixExpression op (some (.float b1)) (some (.float b2))
      = .ok (some (.error ("unknown operator: " ++ FLOAT_OBJ ++ " " ++ op ++ " " ++ FLOAT_OBJ)))
    ∧ evalInfixExpression op (some (.integer v)) (some (.float b1))
      = .ok (some (.error ("type mismatch: " ++ INTEGER_OBJ ++ " " ++ op ++ " " ++ FLOAT_OBJ)))
    ∧ evalInfixExpression op (some (.float b1)) (some (.integer v))
      = .ok (some (.error ("type mismatch: " ++ FLOAT_OBJ ++ " " ++ op ++ " " ++ INTEGER_OBJ)))
    ∧ Eval (f + 1) (.expr (.floatLiteral lit)) env s = .ok (some NULL) s := by
  exact ⟨rfl, rfl, rfl, rfl⟩

/-- C4 counterexample: the claim says every value other than Null,
`false`, `0` and `0.0` — including non-empty Strings — is truthy.
`isTruthy` (src/unnamed/part_003 lines 269-282) falls through to `false`
for every value that is not a boolean singleton or an Integer, so the
condition `"a"` selects the alternative: `if ("a") { 1 } else { 2 }`
evaluates to `2`, not `1`. -/
theorem C4_counterexample_string_condition_is_falsy :
    Eval 9 (ifOneTwo (.stringLiteral "a")) 0 Environment.NewEnvironment
      = .ok (some (.integer 2)) Environment.NewEnvironment
    ∧ isTruthy (some (.string "a")) = false
    ∧ ¬ Eval 9 (ifOneTwo (.stringLiteral "a")) 0 Environment.NewEnvironment
        = .ok (some (.integer 1)) Environment.NewEnvironment := by
  refine ⟨rfl, rfl, fun h => ?_⟩
  have h2 : Res.ok (some (Object.integer 2)) Environment.NewEnvironment
      = .ok (some (.integer 1)) Environment.NewEnvironment := Eq.trans (Eq.symm rfl) h
  simp at h2

/-- C4 amended: an if condition is truthy exactly when it is the boolean
`true` singleton or a non-zero Integer; Null, `false`, `0`, and every
other value — Strings (empty or not), Floats, Arrays, Functions,
Builtins — are falsy, selecting the alternative (or Null when absent).
Float literals never even reach `isTruthy` as Floats: they evaluate to
Null.  The end-to-end conjuncts run `if (cond) { 1 } else { 2 }` for
each value class. -/
theorem C4_truthiness_is_true_or_nonzero_integer :
    (∀ o : Option Object,
      isTruthy o = true ↔ o = some TRUE ∨ ∃ v : Int, v ≠ 0 ∧ o = some (.integer v))
    ∧ (∀ v : Int, v ≠ 0 → ∀ f env s,
        Eval (f + 7) (ifOneTwo (.integerLiteral v)) env s = .ok (some (.integer 1)) s)
    ∧ (∀ f env s, Eval (f + 7) (ifOneTwo (.integerLiteral 0)) env s = .ok (some (.integer 2)) s)
    ∧ (∀ f env s, Eval (f + 7) (ifOneTwo (.booleanLiteral true)) env s = .ok (some (.integer 1)) s)
    ∧ (∀ f env s, Eval (f + 7) (ifOneTwo (.booleanLiteral false)) env s = .ok (some (.integer 2)) s)
    ∧ (∀ str : String, ∀ f env s,
        Eval (f + 7) (ifOneTwo (.stringLiteral str)) env s = .ok (some (.integer 2)) s)
    ∧ (∀ ps bd, ∀ f env s,
        Eval (f + 7) (ifOneTwo (.functionLiteral ps bd)) env s = .ok (some (.integer 2)) s)
    ∧ (∀ lit : String, ∀ f env s,
        Eval (f + 7) (ifOneTwo (.floatLiteral lit)) env s = .ok (some (.integer 2)) s) := by
  refine ⟨?_, ?_, fun f env s => rfl, fun f env s => rfl, fun f env s => rfl,
    fun str f env s => rfl, fun ps bd f env s => rfl, fun lit f env s => rfl⟩
  · intro o
    match o with
    | none => simp [isTruthy, TRUE]
    | some (.integer v) =>
      simp only [isTruthy, TRUE]
      constructor
      · intro hv
        exact Or.inr ⟨v, by simpa [bne] using hv, rfl⟩
      · rintro (h | ⟨w, hw, hvw⟩)
        · exact absurd h (by simp)
        · have : v = w := by simpa using hvw
          subst this
          simpa [bne] using hw
    | some (.boolean b) => cases b <;> simp [isTruthy, TRUE]
    | some (.float bits) => simp [isTruthy, TRUE]
    | some (.string str) => simp [isTruthy, TRUE]
    | some .null => simp [isTruthy, TRUE]
    | some (.returnValue x) => simp [isTruthy, TRUE]
    | some (.error m) => simp [isTruthy, TRUE]
    | some (.function a b c) => simp [isTruthy, TRUE]
    | some (.builtin nm) => simp [isTruthy, TRUE]
    | some (.array els) => simp [isTruthy, TRUE]
  · intro v hv f env s
    have e : Eval (f + 7) (ifOneTwo (.integerLiteral v)) env s
        = if (v != 0) = true then Res.ok (some (.integer 1)) s
          else Res.ok (some (.integer 2)) s := rfl
    rw [e, if_pos (by simp [bne, hv])]

/-- C4 witness: the amended claim at condition `5`. -/
theorem C4_truthiness_witness :
    (5 : Int) ≠ 0
    ∧ Eval 9 (ifOneTwo (.integerLiteral 5)) 0 Environment.NewEnvironment
      = .ok (some (.integer 1)) Environment.NewEnvironment :=
  ⟨by decide,
    C4_truthiness_is_true_or_nonzero_integer.2.1 5 (by decide) 2 0 Environment.NewEnvironment⟩

/-- C7 counterexample: the claim says the right-hand side of `let` is
evaluated first, and that a duplicate binding is rejected only after the
RHS evaluated without error.  The code (src/unnamed/part_003 lines 44-53)
runs `env.GetLocal` first: for `let x = 1; let x = 1 + true;` the result
is `identifier exist: x`, not the claim's type-mismatch error from the
RHS. -/
theorem C7_counterexample_duplicate_check_first :
    Eval 9 (.program [.letStatement "x" (.integerLiteral 1),
        .letStatement "x" (.infixExpression (.integerLiteral 1) "+" (.booleanLiteral true))]) 0
        Environment.NewEnvironment
      = .ok (some (.error "identifier exist: x")) ⟨[⟨[("x", some (.integer 1))], none⟩]⟩
    ∧ ("identifier exist: x" : String) ≠ "type mismatch: INTEGER + BOOLEAN" := by
  exact ⟨rfl, by decide⟩

/-- C7 amended: the duplicate-binding check in the current frame runs
before the right-hand side is looked at: when the name is already bound
there, the result is `identifier exist: X` and the RHS is not evaluated
at all (the heap is untouched — the last conjunct's RHS is `1 / 0`,
whose evaluation would be a host trap); only when the name is free is
the RHS evaluated, a resulting Error becoming the let's result. -/
theorem C7_let_checks_duplicate_before_rhs (f env : Nat) (s : State) (name : String) (value : Expr) :
    (∀ b, Environment.GetLocal s env name = some b →
      Eval (f + 1) (.stmt (.letStatement name value)) env s
        = .ok (some (.error ("identifier exist: " ++ name))) s)
    ∧ (∀ m s1, Environment.GetLocal s env name = none →
        Eval f (.expr value) env s = .ok (some (.error m)) s1 →
        Eval (f + 1) (.stmt (.letStatement name value)) env s = .ok (some (.error m)) s1)
    ∧ Eval 9 (.program [.letStatement "x" (.integerLiteral 1),
        .letStatement "x" (.infixExpression (.integerLiteral 1) "/" (.integerLiteral 0))]) 0
        Environment.NewEnvironment
      = .ok (some (.error "identifier exist: x")) ⟨[⟨[("x", some (.integer 1))], none⟩]⟩ := by
  refine ⟨?_, ?_, rfl⟩
  · intro b hb
    simp only [Eval, run, hb, newError]
  · intro m s1 hn hv
    have hv' : run f (.node (.expr value)) env s = .ok (some (.error m)) s1 := hv
    have hie : isError (some (Object.error m)) = true := rfl
    simp only [Eval, run, hn, hv', hie, if_true]

/-- C7 witness: the amended claim at a bound name with an erroring RHS,
and at a free name with an erroring RHS. -/
theorem C7_let_witness :
    Environment.GetLocal ⟨[⟨[("x", some (.integer 1))], none⟩]⟩ 0 "x" = some (some (.integer 1))
    ∧ Eval 9 (.stmt (.letStatement "x" (.booleanLiteral true))) 0
        ⟨[⟨[("x", some (.integer 1))], none⟩]⟩
      = .ok (some (.error "identifier exist: x")) ⟨[⟨[("x", some (.integer 1))], none⟩]⟩
    ∧ Eval 9 (.stmt (.letStatement "y" (.infixExpression (.integerLiteral 1) "+" (.booleanLiteral true)))) 0
        Environment.NewEnvironment
      = .ok (some (.error "type mismatch: INTEGER + BOOLEAN")) Environment.NewEnvironment :=
  ⟨rfl,
    (C7_let_checks_duplicate_before_rhs 8 0 ⟨[⟨[("x", some (.integer 1))], none⟩]⟩ "x"
      (.booleanLiteral true)).1 (some (.integer 1)) rfl,
    (C7_let_checks_duplicate_before_rhs 8 0 Environment.NewEnvironment "y"
      (.infixExpression (.integerLiteral 1) "+" (.booleanLiteral true))).2.1
      "type mismatch: INTEGER + BOOLEAN" Environment.NewEnvironment rfl rfl⟩

/-- C8: `!x` on an Integer operand yields the canonical TRUE singleton
when `x` is 0 and the canonical FALSE singleton otherwise
(`evalBangOperatorExpression`, src/unnamed/part_003 lines 158-170), the
negation of the truthiness `isTruthy` assigns to integers.  (The older
evaluator snapshot src/evaluator/evaluator.go lines 93-102 returns FALSE
for every integer; spec §9 designates the behavior proved here.) -/
theorem C8_bang_integer_matches_truthiness (v : Int) (f env : Nat) (s : State) :
    Eval (f + 2) (.expr (.prefixExpression "!" (.integerLiteral v))) env s
      = .ok (some (nativeBoolToBooleanObject (v == 0))) s
    ∧ evalBangOperatorExpression (some (.integer v))
      = .ok (some (nativeBoolToBooleanObject (!(isTruthy (some (.integer v))))))
    ∧ nativeBoolToBooleanObject true = TRUE
    ∧ nativeBoolToBooleanObject false = FALSE := by
  refine ⟨rfl, ?_, rfl, rfl⟩
  simp [evalBangOperatorExpression, isTruthy, bne]

/-- Unfolding a singleton block statement by two fuel steps: the block
evaluates its statement and post-processes the result exactly as the
loop of `evalBlockStatement` does. -/
theorem run_block_singleton (F : Nat) (st : Stmt) (env : Nat) (s : State) :
    run (F + 2) (.node (.stmt (.blockStatement [st]))) env s
      = match run F (.node (.stmt st)) env s with
        | .ok result s1 =>
          match result with
          | none => .trap
          | some o =>
            if o.typeTag == ERROR_OBJ then .ok (some o) s1
            else if o.typeTag == RETURN_VALUE_OBJ then .ok (some o) s1
            else run F (.blockStmts (some o) []) env s1
        | r => r := rfl

/-- A `return v;` wrapped in `n` nested blocks evaluates, under any
environment and heap and with any spare fuel `g`, to the *wrapped*
`ReturnValue(v)` — every enclosing block preserves the wrapper — and the
heap is untouched. -/
theorem run_nestBlocks_return (v : Int) :
    ∀ (n g env : Nat) (s : State),
      run (2 * n + g + 2) (.node (.stmt (nestBlocks n (.returnStatement (.integerLiteral v))))) env s
        = .ok (some (.returnValue (some (.integer v)))) s := by
  intro n
  induction n with
  | zero => intro g env s; rfl
  | succ n ih =>
    intro g env s
    rw [show 2 * (n + 1) + g + 2 = 2 * n + g + 2 + 2 by ring]
    rw [show nestBlocks (n + 1) (.returnStatement (.integerLiteral v))
        = .blockStatement [nestBlocks n (.returnStatement (.integerLiteral v))] from rfl]
    rw [run_block_singleton, ih g env s]
    rfl

/-- Applying a nullary function literal whose body is a single statement:
four fuel steps reach the body evaluation inside the fresh enclosed
frame, and a `ReturnValue` result is unwrapped (`applyFunction`'s unwrap
point). -/
theorem run_call_nullary (F : Nat) (body : Stmt) (env : Nat) (s : State)
    (rv : Option Object) (s' : State)
    (h : run F (.node (.stmt body)) s.frames.length ⟨s.frames ++ [⟨[], some env⟩]⟩
        = .ok (some (.returnValue rv)) s') :
    run (F + 4) (.node (.expr (.callExpression (.functionLiteral [] [body]) []))) env s
      = .ok rv s' := by
  have e : run (F + 4) (.node (.expr (.callExpression (.functionLiteral [] [body]) []))) env s
      = match (match run F (.node (.stmt body)) s.frames.length ⟨s.frames ++ [⟨[], some env⟩]⟩ with
               | Res.ok result s1 =>
                 (match result with
                  | none => Res.trap
                  | some o =>
                    if o.typeTag == ERROR_OBJ then Res.ok (some o) s1
                    else if o.typeTag == RETURN_VALUE_OBJ then Res.ok (some o) s1
                    else run F (.blockStmts (some o) []) s.frames.length s1)
               | r => r) with
        | .ok val s3 =>
          match val with
          | some (.returnValue v) => .ok v s3
          | _ => .ok val s3
        | r => r := rfl
  rw [e, h]
  rfl

/-- A two-statement program whose first statement is an expression
statement evaluating to an Integer continues with its second statement:
the program result is the second statement's value. -/
theorem run_program_call_then_int (F : Nat) (e1 : Expr) (w : Int) (env : Nat) (s : State)
    (v' : Int) (s1 : State)
    (h : run (F + 2) (.node (.expr e1)) env s = .ok (some (.integer v')) s1) :
    run (F + 5) (.node (.program
        [.expressionStatement e1, .expressionStatement (.integerLiteral w)])) env s
      = .ok (some (.integer w)) s1 := by
  have e : run (F + 5) (.node (.program
        [.expressionStatement e1, .expressionStatement (.integerLiteral w)])) env s
      = match run (F + 2) (.node (.expr e1)) env s with
        | .ok result s1 =>
          match result with
          | some (.returnValue v) => .ok v s1
          | some (.error m) => .ok (some (.error m)) s1
          | _ => run (F + 3) (.programStmts result [.expressionStatement (.integerLiteral w)]) env s1
        | r => r := rfl
  rw [e, h]
  rfl

/-- C2: a `return v` inside `n` nested blocks of a callee's body is
carried as the `ReturnValue` wrapper through every enclosing block
(first conjunct, any environment, heap and spare fuel), is stripped
exactly at function application, so the call expression evaluates to the
returned value `v` (second conjunct), and the caller's remaining
statements continue normally: the two-statement program returns its
second statement's value `w` (third conjunct). -/
theorem C2_return_isolation (n g : Nat) (v w : Int) (env : Nat) (s : State) :
    Eval (2 * n + g + 2) (.stmt (nestBlocks n (.returnStatement (.integerLiteral v)))) env s
      = .ok (some (.returnValue (some (.integer v)))) s
    ∧ Eval (2 * n + g + 6)
        (.expr (.callExpression
          (.functionLiteral [] [nestBlocks n (.returnStatement (.integerLiteral v))]) []))
        0 Environment.NewEnvironment
      = .ok (some (.integer v)) ⟨[⟨[], none⟩, ⟨[], some 0⟩]⟩
    ∧ Eval (2 * n + g + 9)
        (.program [.expressionStatement (.callExpression
            (.functionLiteral [] [nestBlocks n (.returnStatement (.integerLiteral v))]) []),
          .expressionStatement (.integerLiteral w)])
        0 Environment.NewEnvironment
      = .ok (some (.integer w)) ⟨[⟨[], none⟩, ⟨[], some 0⟩]⟩ := by
  have hbody : run (2 * n + g + 2)
      (.node (.stmt (nestBlocks n (.returnStatement (.integerLiteral v)))))
      Environment.NewEnvironment.frames.length
      ⟨Environment.NewEnvironment.frames ++ [⟨[], some 0⟩]⟩
      = .ok (some (.returnValue (some (.integer v)))) ⟨[⟨[], none⟩, ⟨[], some 0⟩]⟩ :=
    run_nestBlocks_return v n g 1 ⟨[⟨[], none⟩, ⟨[], some 0⟩]⟩
  have hcall : run (2 * n + g + 2 + 4)
      (.node (.expr (.callExpression
        (.functionLiteral [] [nestBlocks n (.returnStatement (.integerLiteral v))]) [])))
      0 Environment.NewEnvironment
      = .ok (some (.integer v)) ⟨[⟨[], none⟩, ⟨[], some 0⟩]⟩ :=
    run_call_nullary (2 * n + g + 2) _ 0 Environment.NewEnvironment
      (some (.integer v)) _ hbody
  refine ⟨run_nestBlocks_return v n g env s, hcall, ?_⟩
  exact run_program_call_then_int (2 * n + g + 4) _ w 0 Environment.NewEnvironment
    v ⟨[⟨[], none⟩, ⟨[], some 0⟩]⟩ hcall

/-- C9: assignment parses right-associatively — `a = b = c` becomes
`AssignExpression(a, AssignExpression(b, c))` with no parse errors,
because `parseAssignExpression` parses its right operand with binding
power `ASSIGN - 1` — while an ordinary binary operator such as `-` is
left-associative: `a - b - c` becomes the left-nested tree. -/
theorem C9_assignment_right_associative (a b c : String) :
    ParseProgram 16 [⟨.IDENT, a⟩, ⟨.ASSIGN, "="⟩, ⟨.IDENT, b⟩, ⟨.ASSIGN, "="⟩, ⟨.IDENT, c⟩]
      = ([.expressionStatement
          (.assignExpression (.identifier a) (.assignExpression (.identifier b) (.identifier c)))],
         ⟨[⟨.IDENT, a⟩, ⟨.ASSIGN, "="⟩, ⟨.IDENT, b⟩, ⟨.ASSIGN, "="⟩, ⟨.IDENT, c⟩], 5, []⟩)
    ∧ ParseProgram 16 [⟨.IDENT, a⟩, ⟨.MINUS, "-"⟩, ⟨.IDENT, b⟩, ⟨.MINUS, "-"⟩, ⟨.IDENT, c⟩]
      = ([.expressionStatement
          (.infixExpression (.infixExpression (.identifier a) "-" (.identifier b)) "-" (.identifier c))],
         ⟨[⟨.IDENT, a⟩, ⟨.MINUS, "-"⟩, ⟨.IDENT, b⟩, ⟨.MINUS, "-"⟩, ⟨.IDENT, c⟩], 5, []⟩)
    ∧ ASSIGN - 1 = 2 ∧ LOWEST = 1 := by
  refine ⟨?_, ?_, rfl, rfl⟩ <;>
    simp [ParseProgram, parseProgramLoop, parseStatement, parseExpressionStatement,
      parseExpression, parseExpressionLoop, parseAssignExpression, parseInfixExpression,
      parseIdentifier, hasPrefixFn, hasInfixFn, curToken, peekToken, tokenAt, nextToken,
      curTokenIs, peekTokenIs, peekPrecedence, curPrecedence, precedences, orNil,
      LOWEST, ASSIGN, SUM]

/-- Go map semantics of the store: after `storeSet name v`, looking up
`m` yields `v` exactly when `m = name`, any other key is untouched. -/
theorem storeGet_storeSet (st : List (String × Option Object)) (name m : String)
    (v : Option Object) :
    storeGet (storeSet st name v) m = if m = name then some v else storeGet st m := by
  induction st with
  | nil =>
    simp only [storeSet, storeGet]
    by_cases h : name = m
    · subst h; simp
    · rw [if_neg h, if_neg (fun hh => h hh.symm)]
  | cons hd tl ih =>
    obtain ⟨k, v'⟩ := hd
    simp only [storeSet]
    by_cases hk : k = name
    · subst hk
      simp only [if_pos rfl, storeGet]
      by_cases hm : k = m
      · subst hm; simp
      · rw [if_neg hm, if_neg hm, if_neg (fun hh => hm hh.symm)]
    · rw [if_neg hk]
      simp only [storeGet]
      by_cases hm : k = m
      · subst hm
        rw [if_pos rfl, if_pos rfl, if_neg hk]
      · rw [if_neg hm, if_neg hm, ih]

/-- `Set` on a valid frame binds the name there. -/
theorem GetLocal_Set_self (s : State) (j : Nat) (name : String) (v : Option Object)
    (hj : j < s.frames.length) :
    Environment.GetLocal (Environment.Set s j name v) j name = some v := by
  have hfr : s.frames[j]? = some s.frames[j] := List.getElem?_eq_getElem hj
  simp only [Environment.Set, Environment.GetLocal, hfr]
  rw [List.getElem?_set_eq_of_lt _ hj]
  simp [storeGet_storeSet]

/-- `Set` on frame `j` for `name` leaves every other binding — any other
frame, or any other name in frame `j` — unchanged. -/
theorem GetLocal_Set_other (s : State) (j k : Nat) (name m : String) (v : Option Object)
    (h : k ≠ j ∨ m ≠ name) :
    Environment.GetLocal (Environment.Set s j name v) k m = Environment.GetLocal s k m := by
  rcases hfr : s.frames[j]? with _ | fr
  · simp [Environment.Set, hfr]
  · simp only [Environment.Set, Environment.GetLocal, hfr]
    by_cases hkj : k = j
    · subst hkj
      rcases h with h | h
      · exact absurd rfl h
      · have hk : k < s.frames.length := (List.getElem?_eq_some.mp hfr).1
        rw [List.getElem?_set_eq_of_lt _ hk, hfr]
        simp [storeGet_storeSet, h]
    · rw [List.getElem?_set_ne (fun hh => hkj hh.symm)]

/-- `Set` does not change the number of frames. -/
theorem length_Set (s : State) (j : Nat) (name : String) (v : Option Object) :
    (Environment.Set s j name v).frames.length = s.frames.length := by
  rcases hfr : s.frames[j]? with _ | fr
  · simp [Environment.Set, hfr]
  · simp [Environment.Set, hfr]

/-- `Set` does not change any frame's `outer` pointer. -/
theorem outer_Set (s : State) (j : Nat) (name : String) (v : Option Object) (k : Nat) :
    ((Environment.Set s j name v).frames[k]?).map Frame.outer = (s.frames[k]?).map Frame.outer := by
  rcases hfr : s.frames[j]? with _ | fr
  · simp [Environment.Set, hfr]
  · simp only [Environment.Set, hfr]
    by_cases hkj : j = k
    · subst hkj
      have hk : j < s.frames.length := (List.getElem?_eq_some.mp hfr).1
      rw [List.getElem?_set_eq_of_lt _ hk, hfr]
      rfl
    · rw [List.getElem?_set_ne hkj]

/-- When `getWithEnvAux` finds `(o, j)`, frame `j` binds the name to `o`,
`j` is a valid frame on the traversed spine, and every spine frame
strictly before `j` does not bind the name — `j` is the innermost
owner. -/
theorem getWithEnvAux_some_spec (s : State) (name : String) :
    ∀ (fuel env : Nat) (o : Option Object) (j : Nat),
      Environment.getWithEnvAux s fuel env name = some (o, j) →
      Environment.GetLocal s j name = some o ∧ j < s.frames.length
      ∧ ∃ pre post, spineAux s fuel env = pre ++ j :: post
          ∧ ∀ k ∈ pre, Environment.GetLocal s k name = none := by
  intro fuel
  induction fuel with
  | zero => intro env o j h; simp [Environment.getWithEnvAux] at h
  | succ fuel ih =>
    intro env o j h
    unfold Environment.getWithEnvAux at h
    rcases hfr : s.frames[env]? with _ | fr
    · simp only [hfr] at h
      exact Option.noConfusion h
    · simp only [hfr] at h
      rcases hsg : storeGet fr.store name with _ | obj
      · simp only [hsg] at h
        rcases hout : fr.outer with _ | outer
        · simp only [hout] at h
          exact Option.noConfusion h
        · simp only [hout] at h
          obtain ⟨h1, h2, pre, post, hsp, hpre⟩ := ih outer o j h
          refine ⟨h1, h2, env :: pre, post, ?_, ?_⟩
          · simp only [spineAux, hfr, hout, hsp, List.cons_append]
          · intro k hk
            rcases List.mem_cons.mp hk with rfl | hk
            · simp [Environment.GetLocal, hfr, hsg]
            · exact hpre k hk
      · simp only [hsg, Option.some.injEq, Prod.mk.injEq] at h
        obtain ⟨ho, hj⟩ := h
        subst ho; subst hj
        refine ⟨by simp [Environment.GetLocal, hfr, hsg], (List.getElem?_eq_some.mp hfr).1,
          [], (match fr.outer with | some outer => spineAux s fuel outer | none => []), ?_, by simp⟩
        simp only [spineAux, hfr, List.nil_append]

/-- When `getWithEnvAux` finds nothing, no frame on the traversed spine
binds the name. -/
theorem getWithEnvAux_none_spec (s : State) (name : String) :
    ∀ (fuel env : Nat),
      Environment.getWithEnvAux s fuel env name = none →
      ∀ k ∈ spineAux s fuel env, Environment.GetLocal s k name = none := by
  intro fuel
  induction fuel with
  | zero => intro env h k hk; simp [spineAux] at hk
  | succ fuel ih =>
    intro env h k hk
    unfold Environment.getWithEnvAux at h
    unfold spineAux at hk
    rcases hfr : s.frames[env]? with _ | fr
    · simp only [hfr] at hk
      simp at hk
    · simp only [hfr] at h hk
      rcases hsg : storeGet fr.store name with _ | obj
      · simp only [hsg] at h
        rcases hout : fr.outer with _ | outer
        · simp only [hout] at hk
          simp at hk
          subst hk
          simp [Environment.GetLocal, hfr, hsg]
        · simp only [hout] at h hk
          rcases List.mem_cons.mp hk with rfl | hk
          · simp [Environment.GetLocal, hfr, hsg]
          · exact ih outer h k hk
      · simp only [hsg] at h
        exact Option.noConfusion h

/-- On a well-formed heap the spine from a valid frame does not depend on
the fuel, as soon as the fuel exceeds the frame index: outer pointers
strictly decrease, so `spine` is the complete chain. -/
theorem spineAux_congr (s : State) (hwf : WFState s) :
    ∀ env, env < s.frames.length → ∀ f f', env + 1 ≤ f → env + 1 ≤ f' →
      spineAux s f env = spineAux s f' env := by
  intro env
  induction env using Nat.strong_induction_on with
  | _ env ih =>
    intro henv f f' hf hf'
    obtain ⟨g, rfl⟩ : ∃ g, f = g + 1 := ⟨f - 1, by omega⟩
    obtain ⟨g', rfl⟩ : ∃ g, f' = g + 1 := ⟨f' - 1, by omega⟩
    have hfr : s.frames[env]? = some s.frames[env] := List.getElem?_eq_getElem henv
    rcases hout : s.frames[env].outer with _ | outer
    · simp only [spineAux, hfr, hout]
    · have ho : outer < env := by
        have hh := hwf env henv
        unfold frameOuterLT at hh
        rw [hout] at hh
        exact hh
      simp only [spineAux, hfr, hout]
      rw [ih outer ho (lt_trans ho henv) g g' (by omega) (by omega)]

/-- C10: `Environment.Assign` modifies at most one binding.  On a
well-formed heap with a valid current frame: the spine is the complete
outer chain (first conjunct); when the name is unbound — `getWithEnv`
finds nothing — `Assign` returns the illegal-assign Error with the heap
returned verbatim, and indeed no spine frame binds the name (second
conjunct); when `getWithEnv` finds the owner `j`, `j` is the innermost
spine frame binding the name, `Assign` overwrites exactly that binding,
and every other binding, every frame count and every `outer` pointer is
unchanged (third conjunct). -/
theorem C10_assign_modifies_exactly_the_owning_frame (s : State) (env : Nat) (name : String)
    (v : Option Object) (hwf : WFState s) (henv : env < s.frames.length) :
    (∀ f, env + 1 ≤ f → spineAux s f env = spine s env)
    ∧ (Environment.getWithEnv s env name = none →
        Environment.Assign s env name v
          = (some (.error ("illegal assign, symbol not exist: " ++ name)), s)
        ∧ ∀ k ∈ spine s env, Environment.GetLocal s k name = none)
    ∧ (∀ o j, Environment.getWithEnv s env name = some (o, j) →
        Environment.Assign s env name v = (v, Environment.Set s j name v)
        ∧ Environment.GetLocal s j name = some o
        ∧ (∃ pre post, spine s env = pre ++ j :: post
            ∧ ∀ k ∈ pre, Environment.GetLocal s k name = none)
        ∧ Environment.GetLocal (Environment.Set s j name v) j name = some v
        ∧ (∀ k m, k ≠ j ∨ m ≠ name →
            Environment.GetLocal (Environment.Set s j name v) k m = Environment.GetLocal s k m)
        ∧ (Environment.Set s j name v).frames.length = s.frames.length
        ∧ ∀ k : Nat, ((Environment.Set s j name v).frames[k]?).map Frame.outer
            = (s.frames[k]?).map Frame.outer) := by
  refine ⟨?_, ?_, ?_⟩
  · intro f hf
    exact spineAux_congr s hwf env henv f s.frames.length hf (by omega)
  · intro hnone
    constructor
    · unfold Environment.Assign
      rw [hnone]
    · exact getWithEnvAux_none_spec s name s.frames.length env hnone
  · intro o j hsome
    obtain ⟨hloc, hj, pre, post, hsp, hpre⟩ :=
      getWithEnvAux_some_spec s name s.frames.length env o j hsome
    refine ⟨?_, hloc, ⟨pre, post, hsp, hpre⟩, GetLocal_Set_self s j name v hj,
      fun k m hkm => GetLocal_Set_other s j k name m v hkm,
      length_Set s j name v, fun k => outer_Set s j name v k⟩
    unfold Environment.Assign
    rw [hsome]

/-- C10 witness: on the concrete two-frame heap, assigning `y` (owned by
the root frame) rewrites exactly that binding, and assigning the unbound
`z` yields the Error with the heap unchanged. -/
theorem C10_assign_witness :
    WFState twoFrameHeap ∧ 1 < twoFrameHeap.frames.length
    ∧ Environment.Assign twoFrameHeap 1 "y" (some (.integer 9))
        = (some (.integer 9), Environment.Set twoFrameHeap 0 "y" (some (.integer 9)))
    ∧ Environment.GetLocal (Environment.Set twoFrameHeap 0 "y" (some (.integer 9))) 0 "y"
        = some (some (.integer 9))
    ∧ Environment.Assign twoFrameHeap 1 "z" (some (.integer 9))
        = (some (.error "illegal assign, symbol not exist: z"), twoFrameHeap) :=
  ⟨by decide, by decide,
    ((C10_assign_modifies_exactly_the_owning_frame twoFrameHeap 1 "y" (some (.integer 9))
      (by decide) (by decide)).2.2 (some (.integer 2)) 0 rfl).1,
    ((C10_assign_modifies_exactly_the_owning_frame twoFrameHeap 1 "y" (some (.integer 9))
      (by decide) (by decide)).2.2 (some (.integer 2)) 0 rfl).2.2.2.1,
    ((C10_assign_modifies_exactly_the_owning_frame twoFrameHeap 1 "z" (some (.integer 9))
      (by decide) (by decide)).2.1 rfl).1⟩

end Monkey
